import Mathlib

/-!
# Verification of the twreporter go-api controllers

Shallow embedding of the two controller files of the repository:

* `src/controllers/topic.go` — the `GetTopics` and `GetATopic` HTTP
  handlers of `NewsController`;
* `src/controllers/oauth/facebook/facebook.go` — the Facebook OAuth
  callback (`Authenticate`, `getRemoteUserData`).

External collaborators that are not part of the repository (the storage
layer, the query-parameter parser `GetQueryParam`, `utils.RetrieveToken`,
`toPostResponse`, the gin framework, the `gjson` decoder and the network)
are modelled as explicit parameters or, where their behaviour is pinned
down by the specification, as definitions marked `Modelled from the spec`.
Handlers return, besides their HTTP response, the list of calls they make
to the external collaborators, so that claims about which calls happen
(and how often) are statable.

Go `int` values are modelled as `Int`; Go slices that may be `nil` are
modelled as `Option (List _)` (with `none` for the `nil` slice, which
JSON-encodes as `null`, and `some l` for a real slice, which encodes as a
JSON array).
-/

/-! ## Small string helpers (Go `strconv` / `net/url` fragments) -/

/-- Go `strconv.ParseBool`: returns the parsed value and whether parsing
succeeded.  Accepts exactly `1, t, T, TRUE, true, True` (true) and
`0, f, F, FALSE, false, False` (false); everything else yields
`(false, error)`, modelled as `(false, false)`. -/
def parseBool (s : String) : Bool × Bool :=
  if s = "1" ∨ s = "t" ∨ s = "T" ∨ s = "TRUE" ∨ s = "true" ∨ s = "True" then
    (true, true)
  else if s = "0" ∨ s = "f" ∨ s = "F" ∨ s = "FALSE" ∨ s = "false" ∨ s = "False" then
    (false, true)
  else
    (false, false)

/-- Upper-case hexadecimal digit for `n < 16`. -/
def hexDigitChar (n : Nat) : Char :=
  if n < 10 then Char.ofNat (48 + n) else Char.ofNat (55 + n)

/-- Characters Go `url.QueryEscape` leaves untouched: ASCII alphanumerics
and `-`, `_`, `.`, `~`. -/
def isUnreservedQueryChar (c : Char) : Bool :=
  c.isAlpha || c.isDigit || c = '-' || c = '_' || c = '.' || c = '~'

/-- Go `url.QueryEscape` on one character: unreserved characters are kept,
space becomes `+`, everything else becomes `%XX` (per code point; the
concrete inputs used here are ASCII, where this agrees with Go's
per-byte escaping). -/
def queryEscapeChar (c : Char) : String :=
  if isUnreservedQueryChar c then String.singleton c
  else if c = ' ' then "+"
  else "%" ++ String.singleton (hexDigitChar (c.toNat / 16))
           ++ String.singleton (hexDigitChar (c.toNat % 16))

/-- Go `url.QueryEscape`. -/
def queryEscape (s : String) : String :=
  String.join (s.toList.map queryEscapeChar)

/-- Split a character list at the first occurrence of `sep`: `none` when
`sep` does not occur, otherwise the parts before and after it. -/
def splitFirstAux (sep : Char) : List Char → Option (List Char × List Char)
  | [] => none
  | c :: cs =>
      if c = sep then some ([], cs)
      else
        match splitFirstAux sep cs with
        | none => none
        | some (l, r) => some (c :: l, r)

/-- Split a string at the first occurrence of the character `sep`:
returns the part before it and the part after it (the whole string and
`""` when `sep` does not occur).  This is `strings.Index`-style
splitting as `net/url` performs it. -/
def splitFirst (sep : Char) (s : String) : String × String :=
  match splitFirstAux sep s.toList with
  | none => (s, "")
  | some (l, r) => (l.asString, r.asString)

/-- Split a character list at every occurrence of `sep`. -/
def splitAllAux (sep : Char) : List Char → List (List Char)
  | [] => [[]]
  | c :: cs =>
      let r := splitAllAux sep cs
      if c = sep then [] :: r
      else
        match r with
        | [] => [[c]]
        | x :: xs => (c :: x) :: xs

/-- The parsed form of a URL, as far as this embedding needs it: the part
before the query string (scheme, host and path), the raw query string,
and the fragment.  Mirrors the `net/url.URL` fields read and written by
the code under verification (`RawQuery`, `String()`). -/
structure URLm where
  base : String
  rawQuery : String
  fragment : String
deriving Repr, DecidableEq

/-- Go `url.Parse` rejects URLs containing ASCII control characters. -/
def hasCtrlChar (s : String) : Bool :=
  s.toList.any (fun c => c.toNat < 32 || c.toNat = 127)

/-- Go `net/url.Parse`, restricted to what the handlers use: the fragment
is everything after the first `#`, the raw query everything after the
first `?` of the remainder, the base the rest.  Fails (as Go's parser
does) on control characters. -/
def urlParse (s : String) : Except String URLm :=
  if hasCtrlChar s then
    .error "net/url: invalid control character in URL"
  else
    let (preFrag, frag) := splitFirst '#' s
    let (base, rq) := splitFirst '?' preFrag
    .ok { base := base, rawQuery := rq, fragment := frag }

/-- Go `net/url.URL.String` for the fields of `URLm`: the query string is
appended after `?` when non-empty, the fragment after `#` when
non-empty. -/
def URLm.toString (u : URLm) : String :=
  u.base ++ (if u.rawQuery = "" then "" else "?" ++ u.rawQuery)
         ++ (if u.fragment = "" then "" else "#" ++ u.fragment)

/-- Go `url.Values.Encode` for a one-entry `Values` holding the single
pair `(k, v)` (the only shape the code builds): `escape(k)=escape(v)`. -/
def valuesEncode1 (k v : String) : String :=
  queryEscape k ++ "=" ++ queryEscape v

/-- Specification vocabulary (not an embedding of a source function): the
key/value pairs of a raw query string, obtained by splitting on `&` and
at the first `=`.  Used to state which query parameters a URL carries;
the concrete inputs used here contain no percent-escapes, where this
agrees with Go's `url.ParseQuery`. -/
def parseQueryPairs (q : String) : List (String × String) :=
  if q = "" then []
  else (splitAllAux '&' q.toList).map (fun kv => splitFirst '=' kv.asString)

/-! ## Data model: topics (`src/controllers/topic.go`) -/

/-- `models.Topic`, reduced to an identifying field: the handlers under
verification never inspect topic contents except to pass records
through (and `GetATopic` returns `topics[0]` verbatim). -/
structure Topic where
  slug : String
deriving Repr, DecidableEq

/-- `models.MongoQuery` as used by the handlers: `GetATopic` builds
`models.MongoQuery{Slug: slug}`; the query built by `GetQueryParam` is
passed through opaquely. -/
structure MongoQuery where
  slug : String := ""
deriving Repr, DecidableEq

/-- The six-tuple returned by `NewsController.GetQueryParam(c)` (defined
outside `src/`, so its output is taken as the handler's input):
`err, mq, limit, offset, sort, full`.  `err` is `some` message when
query-parameter parsing failed. -/
structure ParsedQuery where
  err : Option String
  mq : MongoQuery
  limit : Int
  offset : Int
  sort : String
  full : Bool
deriving Repr, DecidableEq

/-- One call made to the news storage collaborator
(`Storage.GetFullTopics` / `Storage.GetMetaOfTopics`), with the
arguments passed (the trailing embedded-assets argument, always `nil`
in this code, is omitted). -/
inductive NewsCall where
  | fullCall (mq : MongoQuery) (limit offset : Int) (sort : String)
  | metaCall (mq : MongoQuery) (limit offset : Int) (sort : String)
deriving Repr, DecidableEq

/-- Behaviour of the news storage collaborator: each getter returns
either an error or `(topics, total)`, where the topics slice may be the
`nil` slice (`none`). -/
structure NewsStorage where
  getFullTopics : MongoQuery → Int → Int → String → Except String (Option (List Topic) × Int)
  getMetaOfTopics : MongoQuery → Int → Int → String → Except String (Option (List Topic) × Int)

/-- The JSON body a handler returns (a `gin.H`):
* `topicsOk records total offset limit` is
  `{"status":"ok","records":…,"meta":{"total":…,"offset":…,"limit":…}}`,
  with `records = none` standing for JSON `null` (a `nil` slice);
* `recordOk t` is `{"status":"ok","record":…}`;
* `notFound` is the literal
  `{"status":"Record Not Found","error":"Record Not Found"}`;
* `errBody e` is the structured API error envelope produced by
  `toPostResponse`. -/
inductive RespBody where
  | topicsOk (records : Option (List Topic)) (total offset limit : Int)
  | recordOk (record : Topic)
  | notFound
  | errBody (error : String)
deriving Repr, DecidableEq

/-- A handler's outcome: the storage calls it made, and the
`(int, gin.H, error)` triple it returns (HTTP status, body, Go error). -/
structure HandlerResult where
  calls : List NewsCall
  status : Nat
  body : RespBody
  err : Option String
deriving Repr, DecidableEq

/-- Modelled from the spec: `toPostResponse` is defined outside `src/`;
§7 of the spec says storage errors on multi-record reads are
"surfaced as a structured API error" (a generic 5xx-equivalent error
envelope), with the Go error returned alongside. -/
def toPostResponse (e : String) : Nat × RespBody × Option String :=
  (500, .errBody e, some e)

/-- `NewsController.GetTopics` (src/controllers/topic.go:14-58), given
the outcome of `GetQueryParam` and the storage behaviour.  Mirrors the
source: topics start as `make([]Topic, 0)`; a parse error returns 200
with the empty records and zero total before any storage call; then
`limit` defaults to 10 when 0 and `sort` to `"-publishedDate"` when
empty; the `full` flag picks the storage getter; a storage error goes
through `toPostResponse`; a `nil` result slice is replaced by the empty
slice before responding. -/
def GetTopics (stg : NewsStorage) (pq : ParsedQuery) : HandlerResult :=
  let total : Int := 0
  let topics : Option (List Topic) := some []
  match pq.err with
  | some _ =>
      { calls := [], status := 200,
        body := .topicsOk topics total pq.offset pq.limit, err := none }
  | none =>
      let limit := if pq.limit = 0 then 10 else pq.limit
      let sort := if pq.sort = "" then "-publishedDate" else pq.sort
      let call := if pq.full then NewsCall.fullCall pq.mq limit pq.offset sort
                  else NewsCall.metaCall pq.mq limit pq.offset sort
      let res := if pq.full then stg.getFullTopics pq.mq limit pq.offset sort
                 else stg.getMetaOfTopics pq.mq limit pq.offset sort
      match res with
      | .error e =>
          let r := toPostResponse e
          { calls := [call], status := r.1, body := r.2.1, err := r.2.2 }
      | .ok (ts, tot) =>
          let ts : Option (List Topic) := match ts with
            | none => some []
            | some l => some l
          { calls := [call], status := 200,
            body := .topicsOk ts tot pq.offset limit, err := none }

/-- `NewsController.GetATopic` (src/controllers/topic.go:61-87), given
the `:slug` path parameter, the raw `full` query value and the storage
behaviour.  Mirrors the source: `full, _ := strconv.ParseBool(…)` with
the parse error discarded; the query is `MongoQuery{Slug: slug}` with
limit 1, offset 0, sort `"-publishedDate"`; a storage error goes
through `toPostResponse`; `len(topics) == 0` (including the `nil`
slice) yields the 404 body, otherwise `topics[0]` is returned
unwrapped. -/
def GetATopic (stg : NewsStorage) (slug : String) (fullQ : String) : HandlerResult :=
  let full := (parseBool fullQ).1
  let mq : MongoQuery := { slug := slug }
  let call := if full then NewsCall.fullCall mq 1 0 "-publishedDate"
              else NewsCall.metaCall mq 1 0 "-publishedDate"
  let res := if full then stg.getFullTopics mq 1 0 "-publishedDate"
             else stg.getMetaOfTopics mq 1 0 "-publishedDate"
  match res with
  | .error e =>
      let r := toPostResponse e
      { calls := [call], status := r.1, body := r.2.1, err := r.2.2 }
  | .ok (ts, _) =>
      match ts.getD [] with
      | [] => { calls := [call], status := 404, body := .notFound, err := none }
      | t :: _ => { calls := [call], status := 200, body := .recordOk t, err := none }

/-! ## Data model: OAuth (`src/controllers/oauth/facebook/facebook.go`) -/

/-- Go `sql.NullString` as used through `utils.ToNullString` and the
`.String` field accesses: a string plus a validity flag (the Go zero
value is `{"", false}`). -/
structure NullString where
  str : String
  valid : Bool
deriving Repr, DecidableEq

/-- The zero-valued `NullString`. -/
def NullString.zero : NullString := { str := "", valid := false }

/-- `models.OAuthAccount` as built by `Authenticate` from the decoded
Facebook profile: provider type tag, external account id, and profile
fields. -/
structure OAuthAccount where
  otype : String
  aid : NullString
  email : NullString
  name : NullString
  firstName : NullString
  lastName : NullString
  gender : NullString
  picture : NullString
deriving Repr, DecidableEq

/-- `models.User`, reduced to the fields `Authenticate` reads to issue
the session token: `ID`, `Privilege`, `FirstName`, `LastName`,
`Email`. -/
structure User where
  id : Nat
  privilege : Int
  firstName : NullString
  lastName : NullString
  email : NullString
deriving Repr, DecidableEq

/-- The zero-valued `models.User` (Go zero value of the struct). -/
def User.zero : User :=
  { id := 0, privilege := 0, firstName := NullString.zero,
    lastName := NullString.zero, email := NullString.zero }

/-- `models.AppError` as built by `models.NewAppError(message, where,
details, status)` in `getRemoteUserData`. -/
structure AppError where
  message : String
  location : String
  details : String
  status : Nat
deriving Repr, DecidableEq

/-- Behaviour of the user-storage collaborator (`storage.UserStorage`):
`GetUserDataByOAuth` returns the matched user or an error ("not
found"); `InsertUserByOAuth` and `UpdateOAuthData` may fail.  Only the
lookup's value is ever consumed by the code under verification. -/
structure UserStorage where
  getUserDataByOAuth : OAuthAccount → Except String User
  insertUserByOAuth : OAuthAccount → Except String Unit
  updateOAuthData : OAuthAccount → Except String Unit

/-- One externally observable step of the OAuth callback: the browser
redirects issued, the token-endpoint exchange, the profile fetch, the
three user-storage calls, and the issuance of a session token. -/
inductive OauthEffect where
  | redirectEff (status : Nat) (url : String)
  | exchange (code : String)
  | profileFetch (accessToken : String)
  | getUser (acc : OAuthAccount)
  | insertUser (acc : OAuthAccount)
  | updateOAuth (acc : OAuthAccount)
  | tokenIssued (token : String)
deriving Repr, DecidableEq

/-- Whether an effect is an `InsertUserByOAuth` call. -/
def OauthEffect.isInsertCall : OauthEffect → Bool
  | .insertUser _ => true
  | _ => false

/-- Whether an effect is an `UpdateOAuthData` call. -/
def OauthEffect.isUpdateCall : OauthEffect → Bool
  | .updateOAuth _ => true
  | _ => false

/-- Whether an effect is an `oauthConf.Exchange` call. -/
def OauthEffect.isExchangeCall : OauthEffect → Bool
  | .exchange _ => true
  | _ => false

/-- The HTTP response `Authenticate` produces:
* `unauthorized` is the 401 JSON body `{"status":"unauthorized",
  "type":"Facebook","description":"Cannot get user data from
  Facebook."}`;
* `serverError e` is the 500 JSON body
  `{"status":"Internal server error","error":e}`;
* `redirectResp status url` is a browser redirect. -/
inductive AuthResponse where
  | unauthorized
  | serverError (e : String)
  | redirectResp (status : Nat) (url : String)
deriving Repr, DecidableEq

/-- Modelled from the spec: `utils.RetrieveToken` is defined outside
`src/`.  §4.2 step 6: "derive an application session token from the
(possibly just-created) local user's id, privilege level, and name
fields"; the call site passes `ID`, `Privilege`, `FirstName.String`,
`LastName.String`, `Email.String`.  Modelled as a pure derivation of a
(non-empty) token string from exactly those fields; its error return
is discarded by the caller in the source. -/
def retrieveToken (id : Nat) (privilege : Int) (firstName lastName email : String) : String :=
  "token." ++ toString id ++ "." ++ toString privilege ++ "."
    ++ firstName ++ "." ++ lastName ++ "." ++ email

/-- `getRemoteUserData` (src/controllers/oauth/facebook/facebook.go:135-174),
given the configured anti-forgery state string and application path,
the request's `state` and `code` form values, and the outcomes of the
three outbound calls it may make (token exchange, the Facebook
profile-fetch HTTP GET, and reading the response body).  Returns the
effect trace and either the profile JSON string or an `AppError`.
Mirrors the source: a `state` mismatch redirects to
`AppSettings.Path + "/login"` and errors out before any exchange; each
later failure also redirects to the login path with its own
`AppError`. -/
def getRemoteUserData (stateStr appPath : String) (state code : String)
    (exchangeRes : Except String String)
    (httpGetRes : Except String Unit)
    (readAllRes : Except String String) :
    List OauthEffect × Except AppError String :=
  let loginPath := appPath ++ "/login"
  if state ≠ stateStr then
    ([.redirectEff 307 loginPath],
     .error { message := "OAuth state", location := "controllers.oauth.facebook",
              details := "Invalid oauth state", status := 500 })
  else
    match exchangeRes with
    | .error e =>
        ([.exchange code, .redirectEff 307 loginPath],
         .error { message := "Code exchange failed",
                  location := "controllers.oauth.facebook", details := e, status := 500 })
    | .ok accessToken =>
        match httpGetRes with
        | .error e =>
            ([.exchange code, .profileFetch accessToken, .redirectEff 307 loginPath],
             .error { message := "Cannot get user info using Facebook API",
                      location := "controllers.oauth.facebook", details := e, status := 500 })
        | .ok _ =>
            match readAllRes with
            | .error e =>
                ([.exchange code, .profileFetch accessToken, .redirectEff 307 loginPath],
                 .error { message := "Error parsing Facebook user data",
                          location := "controllers.oauth.facebook", details := e, status := 500 })
            | .ok body =>
                ([.exchange code, .profileFetch accessToken], .ok body)

/-- The part of `Facebook.Authenticate`
(src/controllers/oauth/facebook/facebook.go:103-131) that runs once the
remote profile has been decoded into a `models.OAuthAccount`: look the
user up by OAuth account; on lookup error insert the user (both return
values of `InsertUserByOAuth` discarded), on success update the stored
OAuth data; issue a token from the looked-up user (the zero-valued
`models.User` when the lookup failed — the storage collaborator
returns the zero value alongside its error, as the spec's §7 open
issue records); parse `location`, on failure answer the 500 JSON body,
otherwise replace the URL's query string with the single encoded
`token` parameter and redirect with status 307. -/
def reconcileAndRedirect (stg : UserStorage) (location : String)
    (acc : OAuthAccount) : List OauthEffect × AuthResponse :=
  let lookup := stg.getUserDataByOAuth acc
  let step :=
    match lookup with
    | .error _ =>
        let _ := stg.insertUserByOAuth acc
        ([OauthEffect.insertUser acc], User.zero)
    | .ok u =>
        let _ := stg.updateOAuthData acc
        ([OauthEffect.updateOAuth acc], u)
  let matchUser := step.2
  let token := retrieveToken matchUser.id matchUser.privilege
      matchUser.firstName.str matchUser.lastName.str matchUser.email.str
  match urlParse location with
  | .error e =>
      ([OauthEffect.getUser acc] ++ step.1 ++ [OauthEffect.tokenIssued token],
       .serverError e)
  | .ok u =>
      let u' : URLm := { u with rawQuery := valuesEncode1 "token" token }
      ([OauthEffect.getUser acc] ++ step.1 ++ [OauthEffect.tokenIssued token],
       .redirectResp 307 u'.toString)

/-- `Facebook.Authenticate`
(src/controllers/oauth/facebook/facebook.go:71-132) end to end: run
`getRemoteUserData`; on error answer the 401 unauthorized JSON body;
otherwise decode the profile string into a `models.OAuthAccount`
(the `gjson` field extraction is an external collaborator, passed in
as `decode`) and continue with `reconcileAndRedirect`. -/
def authenticate (stateStr appPath : String) (stg : UserStorage)
    (location state code : String)
    (exchangeRes : Except String String)
    (httpGetRes : Except String Unit)
    (readAllRes : Except String String)
    (decode : String → OAuthAccount) : List OauthEffect × AuthResponse :=
  let r := getRemoteUserData stateStr appPath state code exchangeRes httpGetRes readAllRes
  match r.2 with
  | .error _ => (r.1, .unauthorized)
  | .ok fstring =>
      let cont := reconcileAndRedirect stg location (decode fstring)
      (r.1 ++ cont.1, cont.2)

/-! ## Concrete fixtures used by witnesses and counterexamples -/

/-- A parse success carrying no query parameters: `GetQueryParam` yields
zero limit and offset, empty sort, `full=false`. -/
def pq0 : ParsedQuery :=
  { err := none, mq := {}, limit := 0, offset := 0, sort := "", full := false }

/-- The same parse success with the full-projection flag set
(`full=true`). -/
def pqFull : ParsedQuery :=
  { err := none, mq := {}, limit := 0, offset := 0, sort := "", full := true }

/-- A news store that always succeeds with an empty (non-nil) result and
total 0. -/
def stgEmpty : NewsStorage :=
  { getFullTopics := fun _ _ _ _ => .ok (some [], 0),
    getMetaOfTopics := fun _ _ _ _ => .ok (some [], 0) }

/-- A news store that always succeeds with the `nil` slice and total 5. -/
def stgNil : NewsStorage :=
  { getFullTopics := fun _ _ _ _ => .ok (none, 5),
    getMetaOfTopics := fun _ _ _ _ => .ok (none, 5) }

/-- A news store that always succeeds with one record. -/
def stgOne : NewsStorage :=
  { getFullTopics := fun _ _ _ _ => .ok (some [{ slug := "a-topic" }], 1),
    getMetaOfTopics := fun _ _ _ _ => .ok (some [{ slug := "a-topic" }], 1) }

/-! ## Claims about `src/controllers/topic.go` -/

/-- C3: whenever query-parameter parsing fails, `GetTopics` makes no
storage call and returns HTTP 200 with the success envelope whose
records are the empty sequence and whose `meta.total` is 0, with a nil
Go error: a parse failure is never surfaced as an error response. -/
theorem GetTopics_parseError_failOpen (stg : NewsStorage) (pq : ParsedQuery)
    (e : String) (h : pq.err = some e) :
    GetTopics stg pq =
      { calls := [], status := 200,
        body := .topicsOk (some []) 0 pq.offset pq.limit, err := none } := by
  simp [GetTopics, h]

/-- Witness for C3: a concrete failed parse with limit 3 and offset 5
against the nil-slice store yields exactly the fail-open envelope and
no storage call. -/
theorem GetTopics_parseError_failOpen_witness :
    GetTopics stgNil
        { err := some "parse error", mq := {}, limit := 3, offset := 5,
          sort := "", full := false } =
      { calls := [], status := 200,
        body := .topicsOk (some []) 0 5 3, err := none } :=
  GetTopics_parseError_failOpen stgNil _ "parse error" rfl

/-- C4: for every parse outcome and every storage behaviour (including a
`nil` result slice), whenever the body returned by `GetTopics` is a
records envelope, its `records` field is a real (possibly empty)
sequence, never the JSON `null` of a `nil` slice. -/
theorem GetTopics_records_never_null (stg : NewsStorage) (pq : ParsedQuery)
    (r : Option (List Topic)) (t o l : Int)
    (h : (GetTopics stg pq).body = .topicsOk r t o l) :
    ∃ xs, r = some xs := by
  unfold GetTopics at h
  rcases hpe : pq.err with _ | e
  · rw [hpe] at h
    simp only at h
    rcases hres : (if pq.full then
        stg.getFullTopics pq.mq (if pq.limit = 0 then 10 else pq.limit) pq.offset
          (if pq.sort = "" then "-publishedDate" else pq.sort)
      else
        stg.getMetaOfTopics pq.mq (if pq.limit = 0 then 10 else pq.limit) pq.offset
          (if pq.sort = "" then "-publishedDate" else pq.sort)) with e' | p
    · rw [hres] at h
      simp [toPostResponse] at h
    · rw [hres] at h
      rcases p with ⟨ts, tot⟩
      rcases ts with _ | l'
      · simp only at h
        exact ⟨[], by injection h with h1 h2; exact h1.symm⟩
      · simp only at h
        exact ⟨l', by injection h with h1 h2; exact h1.symm⟩
  · rw [hpe] at h
    simp only at h
    exact ⟨[], by injection h with h1 h2; exact h1.symm⟩

/-- Witness for C4: against the store answering with the `nil` slice and
total 5, a successful parse still yields non-null (empty) records. -/
theorem GetTopics_records_never_null_witness :
    (GetTopics stgNil pq0).body = .topicsOk (some []) 5 0 10 ∧
    ∃ xs, (some ([] : List Topic)) = some xs :=
  ⟨rfl, GetTopics_records_never_null stgNil pq0 (some []) 5 0 10 rfl⟩

/-- C5: whenever parsing succeeds with `limit` 0 and empty `sort`,
`GetTopics` queries the storage getter picked by the `full` flag with
`limit = 10` and `sort = "-publishedDate"`; and when that call answers
the empty result with total 0 and the offset is 0, the response is
exactly HTTP 200 with body
`{"status":"ok","records":[],"meta":{"total":0,"offset":0,"limit":10}}`. -/
theorem GetTopics_defaults (stg : NewsStorage) (pq : ParsedQuery)
    (he : pq.err = none) (hl : pq.limit = 0) (hs : pq.sort = "") :
    (GetTopics stg pq).calls =
      [if pq.full then NewsCall.fullCall pq.mq 10 pq.offset "-publishedDate"
       else NewsCall.metaCall pq.mq 10 pq.offset "-publishedDate"] ∧
    ((if pq.full then stg.getFullTopics pq.mq 10 pq.offset "-publishedDate"
      else stg.getMetaOfTopics pq.mq 10 pq.offset "-publishedDate") = .ok (some [], 0) →
     pq.offset = 0 →
     GetTopics stg pq =
       { calls := [if pq.full then NewsCall.fullCall pq.mq 10 0 "-publishedDate"
                   else NewsCall.metaCall pq.mq 10 0 "-publishedDate"],
         status := 200,
         body := .topicsOk (some []) 0 0 10, err := none }) := by
  constructor
  · unfold GetTopics
    rw [he]
    simp only [hl, hs]
    by_cases hf : pq.full = true
    · simp only [if_pos hf]
      rcases hres : stg.getFullTopics pq.mq 10 pq.offset "-publishedDate" with e | p
      · simp [hres, toPostResponse]
      · rcases p with ⟨ts, tot⟩
        rcases ts with _ | l <;> simp [hres]
    · simp only [if_neg hf]
      rcases hres : stg.getMetaOfTopics pq.mq 10 pq.offset "-publishedDate" with e | p
      · simp [hres, toPostResponse]
      · rcases p with ⟨ts, tot⟩
        rcases ts with _ | l <;> simp [hres]
  · intro hres hoff
    rw [hoff] at hres
    unfold GetTopics
    rw [he]
    by_cases hf : pq.full = true
    · rw [if_pos hf] at hres
      simp [hl, hs, hf, hoff, hres]
    · rw [if_neg hf] at hres
      simp [hl, hs, hoff, hres, if_neg hf]

/-- Witness for C5: the empty store with no query parameters (meta
projection) and with `full=true` (full projection) produces, in each
case, the storage call with the defaults and the exact empty success
envelope. -/
theorem GetTopics_defaults_witness :
    ((GetTopics stgEmpty pq0).calls = [NewsCall.metaCall {} 10 0 "-publishedDate"] ∧
     GetTopics stgEmpty pq0 =
       { calls := [NewsCall.metaCall {} 10 0 "-publishedDate"], status := 200,
         body := .topicsOk (some []) 0 0 10, err := none }) ∧
    ((GetTopics stgEmpty pqFull).calls = [NewsCall.fullCall {} 10 0 "-publishedDate"] ∧
     GetTopics stgEmpty pqFull =
       { calls := [NewsCall.fullCall {} 10 0 "-publishedDate"], status := 200,
         body := .topicsOk (some []) 0 0 10, err := none }) :=
  ⟨⟨(GetTopics_defaults stgEmpty pq0 rfl rfl rfl).1,
    (GetTopics_defaults stgEmpty pq0 rfl rfl rfl).2 rfl rfl⟩,
   ⟨(GetTopics_defaults stgEmpty pqFull rfl rfl rfl).1,
    (GetTopics_defaults stgEmpty pqFull rfl rfl rfl).2 rfl rfl⟩⟩

/-- C9: in the parse-error branch of `GetTopics` the echoed
`meta.limit`/`meta.offset` are the values produced by the failed parse,
with the defaults not applied: a failed parse yielding limit 0 answers
`meta.limit = 0`, not 10. -/
theorem GetTopics_parseError_noDefaults (stg : NewsStorage) (pq : ParsedQuery)
    (e : String) (h : pq.err = some e) (hl : pq.limit = 0) :
    (GetTopics stg pq).body = .topicsOk (some []) 0 pq.offset 0 ∧
    (GetTopics stg pq).body ≠ .topicsOk (some []) 0 pq.offset 10 := by
  unfold GetTopics
  rw [h]
  simp [hl]

/-- Witness for C9: a concrete failed parse with limit 0 and offset 4
echoes limit 0 in the envelope, not the default 10. -/
theorem GetTopics_parseError_noDefaults_witness :
    (GetTopics stgEmpty
        { err := some "bad limit", mq := {}, limit := 0, offset := 4,
          sort := "", full := false }).body = .topicsOk (some []) 0 4 0 ∧
    (GetTopics stgEmpty
        { err := some "bad limit", mq := {}, limit := 0, offset := 4,
          sort := "", full := false }).body ≠ .topicsOk (some []) 0 4 10 :=
  GetTopics_parseError_noDefaults stgEmpty _ "bad limit" rfl rfl

/-- C7: `GetATopic` queries storage with exactly the requested slug,
limit 1, offset 0 and sort `"-publishedDate"` (the projection picked by
the `full` flag); when that call succeeds with an empty sequence
(including the `nil` slice) it responds 404 with the literal
`{"status":"Record Not Found","error":"Record Not Found"}` body, and
when it succeeds with a non-empty sequence it responds 200 with the
first record unwrapped as a single `record`. -/
theorem GetATopic_slug_spec (stg : NewsStorage) (slug fullQ : String) :
    (GetATopic stg slug fullQ).calls =
      [if (parseBool fullQ).1 then NewsCall.fullCall { slug := slug } 1 0 "-publishedDate"
       else NewsCall.metaCall { slug := slug } 1 0 "-publishedDate"] ∧
    ∀ ts tot,
      (if (parseBool fullQ).1
       then stg.getFullTopics { slug := slug } 1 0 "-publishedDate"
       else stg.getMetaOfTopics { slug := slug } 1 0 "-publishedDate") = .ok (ts, tot) →
      (ts.getD [] = [] →
        (GetATopic stg slug fullQ).status = 404 ∧
        (GetATopic stg slug fullQ).body = .notFound ∧
        (GetATopic stg slug fullQ).err = none) ∧
      (∀ t rest, ts.getD [] = t :: rest →
        (GetATopic stg slug fullQ).status = 200 ∧
        (GetATopic stg slug fullQ).body = .recordOk t ∧
        (GetATopic stg slug fullQ).err = none) := by
  unfold GetATopic
  by_cases hf : (parseBool fullQ).1 = true
  · simp only [if_pos hf]
    rcases hres : stg.getFullTopics { slug := slug } 1 0 "-publishedDate" with e | ⟨ts', tot'⟩
    · constructor
      · simp
      · intro ts tot hok
        simp at hok
    · constructor
      · rcases hl : ts'.getD [] with _ | ⟨t, rest⟩ <;> simp [hl]
      · intro ts tot hok
        rw [Except.ok.injEq, Prod.mk.injEq] at hok
        obtain ⟨rfl, rfl⟩ := hok
        constructor
        · intro hl
          simp [hl]
        · intro t rest hl
          simp [hl]
  · simp only [if_neg hf]
    rcases hres : stg.getMetaOfTopics { slug := slug } 1 0 "-publishedDate" with e | ⟨ts', tot'⟩
    · constructor
      · simp
      · intro ts tot hok
        simp at hok
    · constructor
      · rcases hl : ts'.getD [] with _ | ⟨t, rest⟩ <;> simp [hl]
      · intro ts tot hok
        rw [Except.ok.injEq, Prod.mk.injEq] at hok
        obtain ⟨rfl, rfl⟩ := hok
        constructor
        · intro hl
          simp [hl]
        · intro t rest hl
          simp [hl]

/-- Witness for C7: with the one-record store and `full=""`, the meta
getter is called with slug, 1, 0, `-publishedDate`, and the record is
returned unwrapped with status 200. -/
theorem GetATopic_slug_spec_witness :
    (GetATopic stgOne "a-topic" "").calls =
      [NewsCall.metaCall { slug := "a-topic" } 1 0 "-publishedDate"] ∧
    (GetATopic stgOne "a-topic" "").status = 200 ∧
    (GetATopic stgOne "a-topic" "").body = .recordOk { slug := "a-topic" } ∧
    (GetATopic stgOne "a-topic" "").err = none :=
  ⟨(GetATopic_slug_spec stgOne "a-topic" "").1,
   (((GetATopic_slug_spec stgOne "a-topic" "").2 (some [{ slug := "a-topic" }]) 1 rfl).2
      { slug := "a-topic" } [] rfl)⟩

/-- C10: `GetATopic` discards the error of `strconv.ParseBool` on the
`full` query value: for every value that is not a valid boolean
literal, the flag is treated as `false`, the meta projection is
queried, and the handler behaves exactly as if `full=false` had been
passed — a malformed `full` never produces an error response of its
own. -/
theorem GetATopic_malformed_full (stg : NewsStorage) (slug fullQ : String)
    (h : (parseBool fullQ).2 = false) :
    (GetATopic stg slug fullQ).calls =
      [NewsCall.metaCall { slug := slug } 1 0 "-publishedDate"] ∧
    GetATopic stg slug fullQ = GetATopic stg slug "false" := by
  have h1 : (parseBool fullQ).1 = false := by
    unfold parseBool at h ⊢
    split at h
    · simp at h
    · rw [if_neg (by assumption)]
      split <;> rfl
  have h2 : (parseBool "false").1 = false := by decide
  constructor
  · unfold GetATopic
    simp only [h1, Bool.false_eq_true, if_false]
    rcases hres : stg.getMetaOfTopics { slug := slug } 1 0 "-publishedDate" with e | ⟨ts, tot⟩
    · simp
    · rcases hl : ts.getD [] with _ | ⟨t, rest⟩ <;> simp [hl]
  · unfold GetATopic
    rw [h1, h2]

/-- Witness for C10: the malformed value `full=yes` against the
one-record store triggers the meta call and gives the same response as
`full=false`. -/
theorem GetATopic_malformed_full_witness :
    (GetATopic stgOne "a-topic" "yes").calls =
      [NewsCall.metaCall { slug := "a-topic" } 1 0 "-publishedDate"] ∧
    GetATopic stgOne "a-topic" "yes" = GetATopic stgOne "a-topic" "false" :=
  GetATopic_malformed_full stgOne "a-topic" "yes" (by decide)

/-! ## OAuth fixtures -/

/-- A concrete decoded Facebook profile. -/
def exAcc : OAuthAccount :=
  { otype := "Facebook", aid := { str := "12345", valid := true },
    email := { str := "jo@x.com", valid := true },
    name := { str := "Jo Doe", valid := true },
    firstName := { str := "Jo", valid := true },
    lastName := { str := "Doe", valid := true },
    gender := { str := "", valid := false },
    picture := { str := "", valid := false } }

/-- A concrete local user matched by the lookup. -/
def exUser : User :=
  { id := 7, privilege := 1, firstName := { str := "Jo", valid := true },
    lastName := { str := "Doe", valid := true },
    email := { str := "jo@x.com", valid := true } }

/-- A user store where the lookup always finds `exUser`. -/
def exStg : UserStorage :=
  { getUserDataByOAuth := fun _ => .ok exUser,
    insertUserByOAuth := fun _ => .ok (),
    updateOAuthData := fun _ => .ok () }

/-- A user store where the lookup always fails (user not found). -/
def stgNoUser : UserStorage :=
  { getUserDataByOAuth := fun _ => .error "record not found",
    insertUserByOAuth := fun _ => .ok (),
    updateOAuthData := fun _ => .ok () }

/-- `stgNoUser` with a failing insert: only the insert behaviour
differs. -/
def stgNoUserInsertFail : UserStorage :=
  { stgNoUser with insertUserByOAuth := fun _ => .error "insert failed" }

/-! ## Claims about `src/controllers/oauth/facebook/facebook.go` -/

/-- C2: whenever the callback's `state` form value differs from the
configured anti-forgery state string, `getRemoteUserData` issues
exactly one effect — a 307 redirect to the login path — and returns
the `Invalid oauth state` error; in particular no `oauthConf.Exchange`
call appears in its effect trace. -/
theorem getRemoteUserData_stateMismatch (stateStr appPath state code : String)
    (exchangeRes : Except String String) (httpGetRes : Except String Unit)
    (readAllRes : Except String String) (h : state ≠ stateStr) :
    getRemoteUserData stateStr appPath state code exchangeRes httpGetRes readAllRes =
      ([.redirectEff 307 (appPath ++ "/login")],
       .error { message := "OAuth state", location := "controllers.oauth.facebook",
                details := "Invalid oauth state", status := 500 }) ∧
    (getRemoteUserData stateStr appPath state code exchangeRes httpGetRes
        readAllRes).1.countP OauthEffect.isExchangeCall = 0 := by
  have he : getRemoteUserData stateStr appPath state code exchangeRes httpGetRes readAllRes =
      ([.redirectEff 307 (appPath ++ "/login")],
       .error { message := "OAuth state", location := "controllers.oauth.facebook",
                details := "Invalid oauth state", status := 500 }) := by
    unfold getRemoteUserData
    rw [if_pos h]
  refine ⟨he, ?_⟩
  rw [he]
  rfl

/-- Witness for C2: with configured state `"state123"` and callback
state `"forged"`, the trace is the lone login redirect and the result
the state error, with zero exchange calls. -/
theorem getRemoteUserData_stateMismatch_witness :
    getRemoteUserData "state123" "/app" "forged" "code1" (.ok "t") (.ok ()) (.ok "{}") =
      ([.redirectEff 307 "/app/login"],
       .error { message := "OAuth state", location := "controllers.oauth.facebook",
                details := "Invalid oauth state", status := 500 }) ∧
    (getRemoteUserData "state123" "/app" "forged" "code1" (.ok "t") (.ok ())
        (.ok "{}")).1.countP OauthEffect.isExchangeCall = 0 :=
  getRemoteUserData_stateMismatch "state123" "/app" "forged" "code1"
    (.ok "t") (.ok ()) (.ok "{}") (by decide)

/-- C6: in the reconciliation step of the OAuth callback, a decoded
profile whose storage lookup fails triggers exactly one
`InsertUserByOAuth` call and zero `UpdateOAuthData` calls, and a
profile whose lookup succeeds triggers zero insert calls and exactly
one update call. -/
theorem authenticate_upsert_counts (stg : UserStorage) (location : String)
    (acc : OAuthAccount) :
    (∀ e, stg.getUserDataByOAuth acc = .error e →
      (reconcileAndRedirect stg location acc).1.countP OauthEffect.isInsertCall = 1 ∧
      (reconcileAndRedirect stg location acc).1.countP OauthEffect.isUpdateCall = 0) ∧
    (∀ u, stg.getUserDataByOAuth acc = .ok u →
      (reconcileAndRedirect stg location acc).1.countP OauthEffect.isInsertCall = 0 ∧
      (reconcileAndRedirect stg location acc).1.countP OauthEffect.isUpdateCall = 1) := by
  constructor
  · intro e he
    unfold reconcileAndRedirect
    rw [he]
    rcases hu : urlParse location with e' | u <;>
      simp [List.countP_cons, OauthEffect.isInsertCall, OauthEffect.isUpdateCall]
  · intro u hu'
    unfold reconcileAndRedirect
    rw [hu']
    rcases hu : urlParse location with e' | u'' <;>
      simp [List.countP_cons, OauthEffect.isInsertCall, OauthEffect.isUpdateCall]

/-- Witness for C6: against the not-found store the trace holds one
insert and no update; against the store that finds `exUser` it holds
no insert and one update. -/
theorem authenticate_upsert_counts_witness :
    ((reconcileAndRedirect stgNoUser "https://example.com" exAcc).1.countP
        OauthEffect.isInsertCall = 1 ∧
     (reconcileAndRedirect stgNoUser "https://example.com" exAcc).1.countP
        OauthEffect.isUpdateCall = 0) ∧
    ((reconcileAndRedirect exStg "https://example.com" exAcc).1.countP
        OauthEffect.isInsertCall = 0 ∧
     (reconcileAndRedirect exStg "https://example.com" exAcc).1.countP
        OauthEffect.isUpdateCall = 1) :=
  ⟨(authenticate_upsert_counts stgNoUser "https://example.com" exAcc).1
      "record not found" rfl,
   (authenticate_upsert_counts exStg "https://example.com" exAcc).2 exUser rfl⟩

/-- C8: on the first-login path the result of `InsertUserByOAuth` is
never consulted — the outcome of the callback is unchanged under any
change of the insert behaviour — the flow always proceeds to token
issuance, and the issued session token is derived from the zero-valued
`models.User` (id 0, privilege 0, empty name and email fields), not
from the inserted profile. -/
theorem authenticate_insert_unchecked (stg stg' : UserStorage) (location : String)
    (acc : OAuthAccount) (e : String)
    (h : stg.getUserDataByOAuth acc = .error e)
    (hg : stg'.getUserDataByOAuth = stg.getUserDataByOAuth)
    (hu : stg'.updateOAuthData = stg.updateOAuthData) :
    OauthEffect.insertUser acc ∈ (reconcileAndRedirect stg location acc).1 ∧
    OauthEffect.tokenIssued (retrieveToken 0 0 "" "" "")
      ∈ (reconcileAndRedirect stg location acc).1 ∧
    reconcileAndRedirect stg' location acc = reconcileAndRedirect stg location acc := by
  refine ⟨?_, ?_, ?_⟩
  · unfold reconcileAndRedirect
    rw [h]
    rcases hup : urlParse location with e' | u <;> simp
  · unfold reconcileAndRedirect
    rw [h]
    rcases hup : urlParse location with e' | u <;> simp [User.zero, NullString.zero]
  · unfold reconcileAndRedirect
    rw [hg, hu]

/-- Witness for C8: with the not-found store, swapping in a failing
insert leaves the outcome untouched, and the trace holds the insert
call and a token derived from the zero-valued user. -/
theorem authenticate_insert_unchecked_witness :
    OauthEffect.insertUser exAcc
      ∈ (reconcileAndRedirect stgNoUser "https://example.com" exAcc).1 ∧
    OauthEffect.tokenIssued (retrieveToken 0 0 "" "" "")
      ∈ (reconcileAndRedirect stgNoUser "https://example.com" exAcc).1 ∧
    reconcileAndRedirect stgNoUserInsertFail "https://example.com" exAcc =
      reconcileAndRedirect stgNoUser "https://example.com" exAcc :=
  authenticate_insert_unchecked stgNoUser stgNoUserInsertFail "https://example.com"
    exAcc "record not found" rfl rfl rfl

/-- The session token derivation never produces the empty string. -/
theorem retrieveToken_ne_empty (id : Nat) (privilege : Int) (fn ln em : String) :
    retrieveToken id privilege fn ln em ≠ "" := by
  unfold retrieveToken
  intro hcon
  have h := congrArg String.length hcon
  simp +decide [String.length_append] at h

/-- C1 is false on the code: on a fully successful callback with
`location = "https://example.com/a?x=1"` (state matches, exchange and
profile fetch succeed, the location parses, the lookup finds `exUser`),
`Authenticate` answers a 307 redirect whose URL is the location's base
with its query string replaced by the single `token` parameter: the
parameter `x=1` carried by `location` is dropped, not preserved. -/
theorem authenticate_drops_location_params :
    (authenticate "state123" "/app" exStg "https://example.com/a?x=1" "state123" "code1"
        (.ok "fbtok") (.ok ()) (.ok "{}") (fun _ => exAcc)).2 =
      .redirectResp 307 "https://example.com/a?token=token.7.1.Jo.Doe.jo%40x.com" ∧
    urlParse "https://example.com/a?x=1" =
      .ok { base := "https://example.com/a", rawQuery := "x=1", fragment := "" } ∧
    ("x", "1") ∈ parseQueryPairs "x=1" ∧
    urlParse "https://example.com/a?token=token.7.1.Jo.Doe.jo%40x.com" =
      .ok { base := "https://example.com/a",
            rawQuery := "token=token.7.1.Jo.Doe.jo%40x.com", fragment := "" } ∧
    ("x", "1") ∉ parseQueryPairs "token=token.7.1.Jo.Doe.jo%40x.com" :=
  ⟨by decide, rfl, by decide, rfl, by decide⟩

/-- C1 (amended): for every successful OAuth callback (state matches,
code exchange and profile fetch succeed, and `location` parses as a
URL), `Authenticate` responds with a 307 redirect to the URL formed
from `location` with its whole query string replaced by the single
encoded `token` parameter carrying a non-empty session token; query
parameters already present in `location` are dropped, not preserved. -/
theorem authenticate_success_redirect (stateStr appPath : String) (stg : UserStorage)
    (location code accessToken profile : String) (decode : String → OAuthAccount)
    (u : URLm) (hloc : urlParse location = .ok u) :
    ∃ matchUser token,
      matchUser = (match stg.getUserDataByOAuth (decode profile) with
        | .ok mu => mu
        | .error _ => User.zero) ∧
      token = retrieveToken matchUser.id matchUser.privilege matchUser.firstName.str
          matchUser.lastName.str matchUser.email.str ∧
      token ≠ "" ∧
      (authenticate stateStr appPath stg location stateStr code
          (.ok accessToken) (.ok ()) (.ok profile) decode).2 =
        .redirectResp 307
          (URLm.toString { base := u.base, rawQuery := valuesEncode1 "token" token,
                           fragment := u.fragment }) := by
  refine ⟨_, _, rfl, rfl, retrieveToken_ne_empty _ _ _ _ _, ?_⟩
  rcases hl : stg.getUserDataByOAuth (decode profile) with e | mu <;>
    simp [authenticate, getRemoteUserData, reconcileAndRedirect, hl, hloc]

/-- Witness for the amended C1: a concrete successful callback with
`location = "https://example.com/b"` redirects 307 to that location
with the non-empty token attached as the sole query parameter. -/
theorem authenticate_success_redirect_witness :
    ∃ matchUser token,
      matchUser = (match exStg.getUserDataByOAuth ((fun _ => exAcc) "{}") with
        | .ok mu => mu
        | .error _ => User.zero) ∧
      token = retrieveToken matchUser.id matchUser.privilege matchUser.firstName.str
          matchUser.lastName.str matchUser.email.str ∧
      token ≠ "" ∧
      (authenticate "state123" "/app" exStg "https://example.com/b" "state123" "c"
          (.ok "t") (.ok ()) (.ok "{}") (fun _ => exAcc)).2 =
        .redirectResp 307
          (URLm.toString { base := "https://example.com/b",
                           rawQuery := valuesEncode1 "token" token, fragment := "" }) :=
  authenticate_success_redirect "state123" "/app" exStg "https://example.com/b" "c" "t" "{}"
    (fun _ => exAcc) { base := "https://example.com/b", rawQuery := "", fragment := "" } rfl
